import Mathlib

/-!
Verification of the AIServer build pipeline (`orchestrator.py`,
`my_model_wrapper.py`) against its natural-language specification.

The Python code is shallowly embedded: external processes and the hosted
language model are modelled as environment functions mapping a command
(resp. a prompt) to an outcome; a Python exception crossing a function
boundary is modelled by `Except.error`.
-/

deriving instance DecidableEq for Except

namespace AIServer

/-- Outcome of a child process that did launch: exit status plus captured
output streams (`process.returncode`, `stdout`, `stderr`). -/
structure ProcResult where
  returncode : Int
  stdout : String
  stderr : String
deriving DecidableEq, Repr

/-- An external command invocation: the argv list plus the optional working
directory, exactly the data the orchestrator passes to `subprocess.run` /
`asyncio.create_subprocess_exec`. -/
structure Cmd where
  argv : List String
  cwd : Option String
deriving DecidableEq, Repr

/-- `AppBuilderOrchestrator.run_subprocess` (orchestrator.py:134-147).
The launch itself is the environment's business: `launch` is `Except.ok p`
when `asyncio.create_subprocess_exec` produced a process that terminated
with result `p`, and `Except.error e` when launching raised (e.g.
`FileNotFoundError`).  The Python body has no try/except, so a launch
error propagates; otherwise the method returns `True` iff the exit status
is `0`. -/
def run_subprocess (launch : Except String ProcResult) : Except String Bool :=
  match launch with
  | .error e => .error e
  | .ok p => .ok (p.returncode == 0)

/-- An abnormal stage termination: either the command could not be
launched (`subprocess.run` raised `OSError`) or it exited non-zero under
`check=True` (`CalledProcessError`). -/
inductive RunError where
  | launch : Cmd → String → RunError
  | calledProcess : Cmd → RunError
deriving DecidableEq, Repr

/-- Run a list of commands with `subprocess.run(..., check=True)`
semantics, as `lint_and_validate` and the `deploy_*` helpers do: stop at
the first command that cannot be launched or exits non-zero, re-raising.
Returns the commands actually invoked, in order, and the stage outcome. -/
def runChecked (env : Cmd → Except String ProcResult) :
    List Cmd → List Cmd × Except RunError Unit
  | [] => ([], .ok ())
  | c :: cs =>
    match env c with
    | .error e => ([c], .error (.launch c e))
    | .ok p =>
      if p.returncode == 0 then
        let rest := runChecked env cs
        (c :: rest.1, rest.2)
      else ([c], .error (.calledProcess c))

/-- Run a list of commands through `run_subprocess`, as `run_tests` does:
every command is awaited unconditionally, the stage verdict is the
conjunction of the per-command Boolean results; only a launch error (which
`run_subprocess` re-raises) aborts the remainder. -/
def runSeq (env : Cmd → Except String ProcResult) :
    List Cmd → List Cmd × Except String Bool
  | [] => ([], .ok true)
  | c :: cs =>
    match run_subprocess (env c) with
    | .error e => ([c], .error e)
    | .ok ok =>
      let rest := runSeq env cs
      (c :: rest.1,
        match rest.2 with
        | .error e => .error e
        | .ok b => .ok (ok && b))

/-- A command launches and exits with status 0 under environment `env`. -/
def cmdOk (env : Cmd → Except String ProcResult) (c : Cmd) : Bool :=
  match env c with
  | .ok p => p.returncode == 0
  | .error _ => false

/-- The four lint commands of `lint_and_validate` (orchestrator.py:104-109),
in source order; `subprocess.run` is called without a working directory. -/
def lintCommands (project_name : String) : List Cmd :=
  [⟨["black", project_name ++ "/backend"], none⟩,
   ⟨["pylint", project_name ++ "/backend/app.py"], none⟩,
   ⟨["eslint", project_name ++ "/frontend"], none⟩,
   ⟨["swiftlint", project_name ++ "/ios"], none⟩]

/-- `AppBuilderOrchestrator.lint_and_validate` (orchestrator.py:102-118):
each lint command runs under `check=True`; a `CalledProcessError` is
logged and re-raised, so the first failure aborts the stage. -/
def lint_and_validate (project_name : String)
    (env : Cmd → Except String ProcResult) : List Cmd × Except RunError Unit :=
  runChecked env (lintCommands project_name)

/-- The three test commands of `run_tests` (orchestrator.py:122-124), with
their working directories, in source order. -/
def testCommands (project_name : String) : List Cmd :=
  [⟨["pytest", project_name ++ "/backend/tests"], some (project_name ++ "/backend")⟩,
   ⟨["npm", "test"], some (project_name ++ "/frontend")⟩,
   ⟨["xcodebuild", "test"], some (project_name ++ "/ios")⟩]

/-- `AppBuilderOrchestrator.run_tests` (orchestrator.py:120-132): backend,
frontend and iOS test commands are each awaited via `run_subprocess`
regardless of the previous results; `all_passed` is the conjunction of the
three Booleans. -/
def run_tests (project_name : String)
    (env : Cmd → Except String ProcResult) : List Cmd × Except String Bool :=
  runSeq env (testCommands project_name)

/-- The three backend deployment commands of `deploy_backend`
(orchestrator.py:184-188), in source order. -/
def backendDeployCmds (project_name : String) : List Cmd :=
  [⟨["docker-compose", "build"], some project_name⟩,
   ⟨["docker-compose", "push"], some project_name⟩,
   ⟨["terraform", "apply", "-auto-approve"], some (project_name ++ "/configs/terraform")⟩]

/-- The frontend deployment command of `deploy_frontend` (orchestrator.py:190-192). -/
def vercelCmd (project_name : String) : Cmd :=
  ⟨["vercel", "--prod"], some (project_name ++ "/frontend")⟩

/-- The iOS deployment command of `deploy_ios` (orchestrator.py:194-196). -/
def fastlaneCmd (project_name : String) : Cmd :=
  ⟨["fastlane", "release"], some (project_name ++ "/ios")⟩

/-- All deployment commands in the order `deploy` issues them:
`deploy_backend`, then `deploy_frontend`, then `deploy_ios`. -/
def deployCommands (project_name : String) : List Cmd :=
  backendDeployCmds project_name ++ [vercelCmd project_name, fastlaneCmd project_name]

/-- `AppBuilderOrchestrator.deploy` (orchestrator.py:171-196): each
deployment command runs under `check=True`; the surrounding try/except
logs and re-raises, so the first failing command aborts the rest. -/
def deploy (project_name : String)
    (env : Cmd → Except String ProcResult) : List Cmd × Except RunError Unit :=
  runChecked env (deployCommands project_name)

/-- The requirements dictionary returned by the model, restricted to the
two keys the orchestrator reads: `requirements.get("app_name", ...)` and
`requirements.get("features", [])`. -/
structure Requirements where
  app_name : Option String
  features : List String
deriving DecidableEq, Repr

/-- The hard-coded fallback of `MyHostedModel.generate_requirements`
(my_model_wrapper.py:44): `{"app_name": "MyApp", "features": ["task_management"]}`. -/
def fallbackRequirements : Requirements :=
  ⟨some "MyApp", ["task_management"]⟩

/-- `MyHostedModel.generate_requirements` (my_model_wrapper.py:28-45).
`response` is the outcome of the LlamaCpp call (outside the try block, so
its exceptions propagate); `parse` models `json.loads` on the response
text (`Except.error` when it raises); a parse error is caught and replaced
by `fallbackRequirements`. -/
def generate_requirements (response : Except String String)
    (parse : String → Except String Requirements) : Except String Requirements :=
  match response with
  | .error e => .error e
  | .ok text =>
    match parse text with
    | .ok req => .ok req
    | .error _ => .ok fallbackRequirements

/-- `AppBuilderOrchestrator.gather_requirements` (orchestrator.py:35-41):
stores the requirements and sets
`self.project_name = self.requirements.get("app_name", "NewApp")`. -/
def gather_requirements (response : Except String String)
    (parse : String → Except String Requirements) :
    Except String (Requirements × String) :=
  match generate_requirements response parse with
  | .error e => .error e
  | .ok req => .ok (req, req.app_name.getD "NewApp")

/-- The directory list of `create_project_structure` (orchestrator.py:64-71). -/
def projectDirectories (project_name : String) : List String :=
  [project_name ++ "/frontend",
   project_name ++ "/backend",
   project_name ++ "/ios",
   project_name ++ "/tests",
   project_name ++ "/docs",
   project_name ++ "/configs"]

/-- The repair prompt built by `MyHostedModel.fix_code` (my_model_wrapper.py:63-66). -/
def fixPrompt (project_name : String) : String :=
  "The code in " ++ project_name ++ " has some errors as per test logs. Suggest and provide code fixes directly."

/-- `MyHostedModel.fix_code` (my_model_wrapper.py:59-71): sends the repair
prompt to the model (`llm : prompt → outcome`; an `Except.error` models
the call raising) and, with no surrounding try/except, returns `True`
unconditionally once the call returns. -/
def fix_code (project_name : String)
    (llm : String → Except String String) : Except String Bool :=
  match llm (fixPrompt project_name) with
  | .error e => .error e
  | .ok _ => .ok true

/-- `AppBuilderOrchestrator.fix_errors` (orchestrator.py:149-157): awaits
`model.fix_code` with no exception handler (the Boolean only selects a log
message), so a raised collaborator error propagates to the caller. -/
def fix_errors (project_name : String)
    (llm : String → Except String String) : Except String Unit :=
  match fix_code project_name llm with
  | .error e => .error e
  | .ok _fixed => .ok ()

/-- One entry of the Retry Controller's attempt history: the 1-indexed
attempt number, whether `run_tests` reported success at that attempt, and
whether `fix_errors` was invoked after it. -/
structure AttemptRecord where
  attempt_number : Nat
  test_passed : Bool
  repair_attempted : Bool
deriving DecidableEq, Repr

/-- Result of the retry loop: the Boolean `iterate_until_success` returns
plus the accumulated attempt history. -/
structure IterTrace where
  result : Bool
  attempts : List AttemptRecord
deriving DecidableEq, Repr

/-- The body of the `for attempt in range(1, max_iterations + 1)` loop of
`iterate_until_success` (orchestrator.py:159-169), with `a` the current
attempt number and `r` the attempts still permitted: run the tests
(`outcomes a` is the verdict `run_tests` returns at attempt `a`); on
success return `True` at once; on failure call `fix_errors` — the source
does this on every failed attempt, the last one included — and continue;
when the range is exhausted return `False`. -/
def iterGo (outcomes : Nat → Bool) : Nat → Nat → IterTrace
  | _, 0 => ⟨false, []⟩
  | a, r + 1 =>
    if outcomes a then ⟨true, [⟨a, true, false⟩]⟩
    else
      let t := iterGo outcomes (a + 1) r
      ⟨t.result, ⟨a, false, true⟩ :: t.attempts⟩

/-- `AppBuilderOrchestrator.iterate_until_success` (orchestrator.py:159-169):
the retry loop starting at attempt 1 with `max_iterations` permitted
attempts.  The value `fix_code` returns never influences control flow (the
source discards `fix_errors`' result), so it is not a parameter here; a
repair collaborator that raises is treated separately in `fix_errors`. -/
def iterate_until_success (max_iterations : Nat) (outcomes : Nat → Bool) : IterTrace :=
  iterGo outcomes 1 max_iterations

/-- The environment a whole `build_app` run consumes: the parse outcome of
the requirements response, the process environments of the lint and deploy
stages, and the per-attempt verdict of `run_tests` inside the retry loop
(attempts are 1-indexed).  Code generation and search are modelled as
succeeding: they touch no state the claims mention. -/
structure BuildEnv where
  response : Except String String
  parse : String → Except String Requirements
  lintEnv : Cmd → Except String ProcResult
  max_iterations : Nat
  testOutcomes : Nat → Bool
  deployEnv : Cmd → Except String ProcResult

/-- Which stages a `build_app` run executed and how they ended. -/
structure BuildTrace where
  project_name : String
  lintTrace : List Cmd
  lintResult : Except RunError Unit
  testStageRan : Bool
  retrySucceeded : Bool
  deployRan : Bool
  deployTrace : List Cmd
  deployResult : Option (Except RunError Unit)
deriving DecidableEq, Repr

/-- The lint-and-later part of `build_app` (orchestrator.py:205-210), once
the project name is known: `lint_and_validate` (whose re-raised error
aborts the pipeline) → `iterate_until_success` → `deploy` only when the
retry loop returned `True`, otherwise deployment is skipped. -/
def buildPipeline (name : String) (benv : BuildEnv) : BuildTrace :=
  match (lint_and_validate name benv.lintEnv).2 with
  | .error e =>
    ⟨name, (lint_and_validate name benv.lintEnv).1, .error e,
      false, false, false, [], none⟩
  | .ok _ =>
    if (iterate_until_success benv.max_iterations benv.testOutcomes).result then
      ⟨name, (lint_and_validate name benv.lintEnv).1, .ok (),
        true, true, true,
        (deploy name benv.deployEnv).1, some (deploy name benv.deployEnv).2⟩
    else
      ⟨name, (lint_and_validate name benv.lintEnv).1, .ok (),
        true, false, false, [], none⟩

/-- `AppBuilderOrchestrator.build_app` (orchestrator.py:198-210): await
`gather_requirements` (a raised collaborator error aborts the whole build),
then search, scaffolding and generation (no state the claims mention),
then the lint → retry → conditional-deploy pipeline. -/
def build_app (benv : BuildEnv) : Except String BuildTrace :=
  match gather_requirements benv.response benv.parse with
  | .error e => .error e
  | .ok pr => .ok (buildPipeline pr.2 benv)

/-- A concrete build environment whose first lint command exits non-zero
while everything else succeeds. -/
def lintFailEnv : BuildEnv :=
  ⟨Except.ok "q", fun _ => Except.ok ⟨some "A", []⟩,
   fun _ => Except.ok ⟨1, "", "lint error"⟩,
   1, fun _ => true, fun _ => Except.ok ⟨0, "", ""⟩⟩

/-- The trace `build_app` produces under `lintFailEnv`. -/
def lintFailTrace : BuildTrace :=
  ⟨"A", [⟨["black", "A/backend"], none⟩],
   Except.error (RunError.calledProcess ⟨["black", "A/backend"], none⟩),
   false, false, false, [], none⟩

/-- A concrete build environment in which every external call succeeds. -/
def allOkEnv : BuildEnv :=
  ⟨Except.ok "q", fun _ => Except.ok ⟨some "A", ["f"]⟩,
   fun _ => Except.ok ⟨0, "", ""⟩,
   1, fun _ => true, fun _ => Except.ok ⟨0, "", ""⟩⟩

/-- The trace `build_app` produces under `allOkEnv`. -/
def allOkTrace : BuildTrace :=
  ⟨"A", lintCommands "A", Except.ok (), true, true, true,
   deployCommands "A", some (Except.ok ())⟩

/-- A process environment in which every command exits with status 0. -/
def allZeroExits : Cmd → Except String ProcResult :=
  fun _ => Except.ok ⟨0, "", ""⟩

/-- A process environment in which the frontend deployment command exits
non-zero and every other command exits with status 0. -/
def frontFailExits : Cmd → Except String ProcResult :=
  fun c =>
    if c.argv = ["vercel", "--prod"] then Except.ok ⟨1, "", "deploy error"⟩
    else Except.ok ⟨0, "", ""⟩

theorem iterGo_length_le (o : Nat → Bool) (r : Nat) :
    ∀ a, (iterGo o a r).attempts.length ≤ r := by
  induction r with
  | zero => intro a; simp [iterGo]
  | succ n ih =>
    intro a
    by_cases h : o a = true
    · simp [iterGo, h]
    · simp only [iterGo, h, if_false, Bool.false_eq_true, List.length_cons]
      exact Nat.succ_le_succ (ih (a + 1))

theorem iterGo_result_false (o : Nat → Bool) (r : Nat) :
    ∀ a, (iterGo o a r).result = false →
      (iterGo o a r).attempts.length = r ∧
      ∀ rec ∈ (iterGo o a r).attempts,
        rec.test_passed = false ∧ rec.repair_attempted = true := by
  induction r with
  | zero => intro a _; simp [iterGo]
  | succ n ih =>
    intro a hres
    by_cases h : o a = true
    · simp [iterGo, h] at hres
    · simp only [iterGo, h, if_false, Bool.false_eq_true] at hres ⊢
      obtain ⟨hlen, hall⟩ := ih (a + 1) hres
      refine ⟨by simp [hlen], ?_⟩
      intro rec hrec
      rcases List.mem_cons.1 hrec with hhd | htl
      · subst hhd; exact ⟨rfl, rfl⟩
      · exact hall rec htl

theorem iterGo_before_last_failed (o : Nat → Bool) (r : Nat) :
    ∀ a j, j + 1 < (iterGo o a r).attempts.length →
      ((iterGo o a r).attempts.getD j ⟨0, false, false⟩).test_passed = false := by
  induction r with
  | zero => intro a j hj; simp [iterGo] at hj
  | succ n ih =>
    intro a j hj
    by_cases h : o a = true
    · simp [iterGo, h] at hj
    · cases j with
      | zero => simp [iterGo, h]
      | succ k =>
        have hk : k + 1 < (iterGo o (a + 1) n).attempts.length := by
          simpa [iterGo, h] using hj
        simpa [iterGo, h, List.getD_cons_succ] using ih (a + 1) k hk

/-- C1 (counterexample): the claim says that with `max_attempts == 1` the
controller never attempts a repair.  In the source the loop body calls
`fix_errors` after every failed test run, the final attempt included: with
one permitted attempt and a failing test run, the trace records exactly
one attempt with `repair_attempted = true` before the exhausted (`False`)
return. -/
theorem iterate_max1_repairs_cex :
    iterate_until_success 1 (fun _ => false) =
      ⟨false, [⟨1, false, true⟩]⟩ := by
  decide

/-- C1 (amended): when the Retry Controller exhausts its attempts, every
attempt — the final one included — had a failing test verdict followed by
an invocation of the Repair Step; in particular with `max_attempts == 1`
the controller performs exactly one Test Stage run and reaches `SUCCEEDED`
directly on a pass, or performs one repair and then reaches `EXHAUSTED` on
a failure. -/
theorem iterate_final_attempt_repair (m : Nat) (o : Nat → Bool) (_hm : 1 ≤ m) :
    ((iterate_until_success m o).result = false →
      (iterate_until_success m o).attempts.length = m ∧
      ∀ rec ∈ (iterate_until_success m o).attempts, rec.repair_attempted = true) ∧
    iterate_until_success 1 o =
      (if o 1 then ⟨true, [⟨1, true, false⟩]⟩ else ⟨false, [⟨1, false, true⟩]⟩) := by
  constructor
  · intro hres
    obtain ⟨hlen, hall⟩ := iterGo_result_false o m 1 hres
    exact ⟨hlen, fun rec hrec => (hall rec hrec).2⟩
  · by_cases h : o 1 = true <;> simp [iterate_until_success, iterGo, h]

/-- C1 (witness): instantiating the amended claim at `max_attempts = 1`
with a test run that fails. -/
theorem iterate_final_attempt_repair_wit :
    (iterate_until_success 1 (fun _ => false)).attempts.length = 1 ∧
    ∀ rec ∈ (iterate_until_success 1 (fun _ => false)).attempts,
      rec.repair_attempted = true :=
  (iterate_final_attempt_repair 1 (fun _ => false) (by decide)).1 (by decide)

/-- C4: for every `max_attempts ≥ 1` and every sequence of test outcomes,
the accumulated attempt history has length at most `max_attempts`, and
when its length reaches `max_attempts` every attempt before the last had
a failing test verdict. -/
theorem iterate_attempts_bounded (m : Nat) (o : Nat → Bool) (_hm : 1 ≤ m) :
    (iterate_until_success m o).attempts.length ≤ m ∧
    ((iterate_until_success m o).attempts.length = m →
      ∀ j, j + 1 < m →
        ((iterate_until_success m o).attempts.getD j ⟨0, false, false⟩).test_passed = false) := by
  refine ⟨iterGo_length_le o m 1, ?_⟩
  intro hlen j hj
  have hlen2 : (iterGo o 1 m).attempts.length = m := hlen
  exact iterGo_before_last_failed o m 1 j (by omega)

/-- C4 (witness): two permitted attempts, tests failing throughout — the
history has length 2 ≤ 2 and the first (non-final) attempt failed. -/
theorem iterate_attempts_bounded_wit :
    (iterate_until_success 2 (fun _ => false)).attempts.length ≤ 2 ∧
    ((iterate_until_success 2 (fun _ => false)).attempts.getD 0 ⟨0, false, false⟩).test_passed = false :=
  ⟨(iterate_attempts_bounded 2 (fun _ => false) (by decide)).1,
   (iterate_attempts_bounded 2 (fun _ => false) (by decide)).2 (by decide) 0 (by decide)⟩

/-- C2 (counterexample): invoked with an executable that cannot be
launched, `run_subprocess` does not return a result at all — the
`FileNotFoundError` raised by `asyncio.create_subprocess_exec` propagates
past the Tool Runner boundary, contradicting the claim that no exception
ever crosses it. -/
theorem run_subprocess_launch_cex :
    run_subprocess (Except.error "FileNotFoundError: No such file or directory") =
      Except.error "FileNotFoundError: No such file or directory" := rfl

/-- C2 (amended): when the command launches, `run_subprocess` returns a
Boolean (not a Command Result) that is `True` exactly when the exit status
is 0, and no exception escapes; when the executable cannot be launched,
the launch exception propagates past the Tool Runner boundary unchanged. -/
theorem run_subprocess_behavior (p : ProcResult) (e : String) :
    (∃ b, run_subprocess (Except.ok p) = Except.ok b ∧ (b = true ↔ p.returncode = 0)) ∧
    run_subprocess (Except.error e) = Except.error e := by
  exact ⟨⟨p.returncode == 0, rfl, by simp⟩, rfl⟩

/-- C3 (counterexample): when the collaborator's repair call raises,
`MyHostedModel.fix_code` does not return `False` — there is no exception
handler, so the failure propagates out of the Repair Step, contradicting
the claim. -/
theorem fix_code_error_cex :
    fix_code "MyApp" (fun _ => Except.error "LlamaCpp call timed out") =
      Except.error "LlamaCpp call timed out" := rfl

/-- C3 (amended): when the collaborator's repair call returns at all,
`fix_code` reports `True` unconditionally; when the call raises, the
exception propagates unchanged through `fix_code` and through the
orchestrator's `fix_errors`, which installs no handler either — the Retry
Controller never observes a `False` repair outcome from a failed call. -/
theorem fix_code_behavior (project_name : String) (llm : String → Except String String) :
    (∀ r, llm (fixPrompt project_name) = Except.ok r →
      fix_code project_name llm = Except.ok true) ∧
    (∀ e, llm (fixPrompt project_name) = Except.error e →
      fix_code project_name llm = Except.error e ∧
      fix_errors project_name llm = Except.error e) := by
  constructor
  · intro r hr; simp [fix_code, hr]
  · intro e he; simp [fix_code, fix_errors, he]

/-- C3 (witness): a repair call that times out at a concrete project. -/
theorem fix_code_behavior_wit :
    fix_code "NewApp" (fun _ => Except.error "timeout") = Except.error "timeout" ∧
    fix_errors "NewApp" (fun _ => Except.error "timeout") = Except.error "timeout" :=
  (fix_code_behavior "NewApp" (fun _ => Except.error "timeout")).2 "timeout" rfl

theorem runChecked_ok_iff (env : Cmd → Except String ProcResult) :
    ∀ cs : List Cmd,
      (runChecked env cs).2 = Except.ok () ↔ ∀ c ∈ cs, cmdOk env c = true := by
  intro cs
  induction cs with
  | nil => simp [runChecked]
  | cons c cs ih =>
    cases henv : env c with
    | error e => simp [runChecked, henv, cmdOk]
    | ok p =>
      by_cases h : p.returncode == 0
      · simp [runChecked, henv, h, cmdOk, ih]
      · simp [runChecked, henv, h, cmdOk]

theorem runChecked_all_ok (env : Cmd → Except String ProcResult) :
    ∀ cs : List Cmd, (∀ c ∈ cs, cmdOk env c = true) →
      runChecked env cs = (cs, Except.ok ()) := by
  intro cs
  induction cs with
  | nil => intro _; rfl
  | cons c cs ih =>
    intro hok
    have hc : cmdOk env c = true := hok c (by simp)
    cases henv : env c with
    | error e => simp [cmdOk, henv] at hc
    | ok p =>
      have hp : (p.returncode == 0) = true := by simpa [cmdOk, henv] using hc
      have hrest := ih (fun c' hc' => hok c' (by simp [hc']))
      simp [runChecked, henv, hp, hrest]

theorem runChecked_fail_at (env : Cmd → Except String ProcResult)
    (c : Cmd) (cs2 : List Cmd) :
    ∀ cs1 : List Cmd, (∀ c' ∈ cs1, cmdOk env c' = true) → cmdOk env c = false →
      (runChecked env (cs1 ++ c :: cs2)).1 = cs1 ++ [c] ∧
      ∃ err, (runChecked env (cs1 ++ c :: cs2)).2 = Except.error err := by
  intro cs1
  induction cs1 with
  | nil =>
    intro _ hc
    cases henv : env c with
    | error e => simp [runChecked, henv]
    | ok p =>
      have hp : (p.returncode == 0) = false := by simpa [cmdOk, henv] using hc
      simp [runChecked, henv, hp]
  | cons d ds ih =>
    intro hok hc
    have hd : cmdOk env d = true := hok d (by simp)
    cases henv : env d with
    | error e => simp [cmdOk, henv] at hd
    | ok p =>
      have hp : (p.returncode == 0) = true := by simpa [cmdOk, henv] using hd
      obtain ⟨h1, h2⟩ := ih (fun c' hc' => hok c' (by simp [hc'])) hc
      simp [runChecked, henv, hp, h1, h2]

theorem runSeq_all_launched (procs : Cmd → ProcResult) :
    ∀ cs : List Cmd,
      runSeq (fun c => Except.ok (procs c)) cs =
        (cs, Except.ok (cs.all fun c => (procs c).returncode == 0)) := by
  intro cs
  induction cs with
  | nil => rfl
  | cons c cs ih => simp [runSeq, run_subprocess, ih, List.all_cons]

/-- C6: when every test command launches, `run_tests` invokes all three
targets' commands in source order regardless of the individual exit
statuses, and the verdict is the conjunction of the per-target `succeeded`
flags, each holding exactly when that target's command exited with 0. -/
theorem run_tests_full_coverage (project_name : String) (procs : Cmd → ProcResult) :
    (run_tests project_name (fun c => Except.ok (procs c))).1 = testCommands project_name ∧
    (run_tests project_name (fun c => Except.ok (procs c))).2 =
      Except.ok
        (((procs ⟨["pytest", project_name ++ "/backend/tests"], some (project_name ++ "/backend")⟩).returncode == 0)
          && ((procs ⟨["npm", "test"], some (project_name ++ "/frontend")⟩).returncode == 0)
          && ((procs ⟨["xcodebuild", "test"], some (project_name ++ "/ios")⟩).returncode == 0)) := by
  constructor
  · simp [run_tests, runSeq_all_launched]
  · simp [run_tests, runSeq_all_launched, testCommands, List.all_cons, Bool.and_assoc]

/-- C8: `deploy` issues the deployment commands in the fixed order
backend (three commands), frontend, mobile; when the backend commands
succeed and the frontend command fails, the invoked-command trace stops at
the frontend command, the mobile (`fastlane`) command is never invoked,
and the stage terminates with an error. -/
theorem deploy_fixed_order_fail_fast (project_name : String)
    (env : Cmd → Except String ProcResult) :
    ((∀ c ∈ deployCommands project_name, cmdOk env c = true) →
      deploy project_name env = (deployCommands project_name, Except.ok ())) ∧
    ((∀ c ∈ backendDeployCmds project_name, cmdOk env c = true) →
      cmdOk env (vercelCmd project_name) = false →
      (deploy project_name env).1 = backendDeployCmds project_name ++ [vercelCmd project_name] ∧
      fastlaneCmd project_name ∉ (deploy project_name env).1 ∧
      ∃ err, (deploy project_name env).2 = Except.error err) := by
  constructor
  · intro hok
    exact runChecked_all_ok env (deployCommands project_name) hok
  · intro hback hfront
    have hsplit :
        deployCommands project_name =
          backendDeployCmds project_name ++ vercelCmd project_name :: [fastlaneCmd project_name] := rfl
    obtain ⟨h1, h2⟩ :=
      runChecked_fail_at env (vercelCmd project_name) [fastlaneCmd project_name]
        (backendDeployCmds project_name) hback hfront
    rw [deploy, hsplit]
    refine ⟨h1, ?_, h2⟩
    rw [h1]
    simp [backendDeployCmds, vercelCmd, fastlaneCmd, Cmd.mk.injEq]

/-- C8 (witness): at a concrete project, with all deployments succeeding
the full fixed-order command list runs; with the frontend deployment
failing, the trace stops at the frontend command and `fastlane` never
appears. -/
theorem deploy_fixed_order_fail_fast_wit :
    deploy "A" allZeroExits = (deployCommands "A", Except.ok ()) ∧
    (deploy "A" frontFailExits).1 = backendDeployCmds "A" ++ [vercelCmd "A"] ∧
    fastlaneCmd "A" ∉ (deploy "A" frontFailExits).1 :=
  ⟨(deploy_fixed_order_fail_fast "A" allZeroExits).1 (by decide),
   ((deploy_fixed_order_fail_fast "A" frontFailExits).2 (by decide) (by decide)).1,
   ((deploy_fixed_order_fail_fast "A" frontFailExits).2 (by decide) (by decide)).2.1⟩

theorem buildPipeline_project_name (name : String) (benv : BuildEnv) :
    (buildPipeline name benv).project_name = name := by
  unfold buildPipeline
  cases (lint_and_validate name benv.lintEnv).2 with
  | error e => rfl
  | ok u =>
    by_cases h : (iterate_until_success benv.max_iterations benv.testOutcomes).result
    · simp [h]
    · simp [h]

theorem buildPipeline_lint_fail (name : String) (benv : BuildEnv)
    (h : ∃ c ∈ lintCommands name, cmdOk benv.lintEnv c = false) :
    (buildPipeline name benv).testStageRan = false ∧
    (buildPipeline name benv).deployRan = false ∧
    (buildPipeline name benv).deployTrace = [] := by
  have hne : (lint_and_validate name benv.lintEnv).2 ≠ Except.ok () := by
    intro hok
    obtain ⟨c, hc, hbad⟩ := h
    have := (runChecked_ok_iff benv.lintEnv (lintCommands name)).1 hok c hc
    rw [this] at hbad
    cases hbad
  unfold buildPipeline
  cases hl : (lint_and_validate name benv.lintEnv).2 with
  | error e => simp
  | ok u => cases u; exact absurd hl hne

theorem buildPipeline_deploy_iff (name : String) (benv : BuildEnv) :
    (buildPipeline name benv).deployRan = true ↔
      ((buildPipeline name benv).testStageRan = true ∧
       (iterate_until_success benv.max_iterations benv.testOutcomes).result = true) := by
  unfold buildPipeline
  cases hl : (lint_and_validate name benv.lintEnv).2 with
  | error e => simp
  | ok u =>
    by_cases h : (iterate_until_success benv.max_iterations benv.testOutcomes).result
    · simp [h]
    · simp [h]

/-- C7: if any lint command fails during the Lint Stage, the re-raised
`CalledProcessError` halts `build_app` before testing — the Test Stage is
never entered and deployment is never invoked for that build. -/
theorem lint_failure_halts (benv : BuildEnv) (t : BuildTrace)
    (hba : build_app benv = Except.ok t)
    (hfail : ∃ c ∈ lintCommands t.project_name, cmdOk benv.lintEnv c = false) :
    t.testStageRan = false ∧ t.deployRan = false ∧ t.deployTrace = [] := by
  unfold build_app at hba
  cases hg : gather_requirements benv.response benv.parse with
  | error e => rw [hg] at hba; cases hba
  | ok pr =>
    rw [hg] at hba
    injection hba with hba
    subst hba
    rw [buildPipeline_project_name] at hfail
    exact buildPipeline_lint_fail pr.2 benv hfail

/-- C7 (witness): a concrete build whose first lint command exits 1. -/
theorem lint_failure_halts_wit :
    build_app lintFailEnv = Except.ok lintFailTrace ∧
    lintFailTrace.testStageRan = false ∧ lintFailTrace.deployRan = false ∧
    lintFailTrace.deployTrace = [] :=
  ⟨by decide, lint_failure_halts lintFailEnv lintFailTrace (by decide) (by decide)⟩

/-- C5: in a completed `build_app` run, the Deployment Stage is invoked
exactly when the Lint Stage let the Retry Controller run and the
controller terminated with success (its final test run passed); when the
controller exhausts its attempts, deployment is never invoked. -/
theorem deploy_iff_retry_succeeded (benv : BuildEnv) (t : BuildTrace)
    (hba : build_app benv = Except.ok t) :
    t.deployRan = true ↔
      (t.testStageRan = true ∧
       (iterate_until_success benv.max_iterations benv.testOutcomes).result = true) := by
  unfold build_app at hba
  cases hg : gather_requirements benv.response benv.parse with
  | error e => rw [hg] at hba; cases hba
  | ok pr =>
    rw [hg] at hba
    injection hba with hba
    subst hba
    exact buildPipeline_deploy_iff pr.2 benv

/-- C5 (witness): a concrete build in which lint and every test pass, so
the retry loop succeeds and deployment runs. -/
theorem deploy_iff_retry_succeeded_wit :
    allOkTrace.deployRan = true :=
  (deploy_iff_retry_succeeded allOkEnv allOkTrace (by decide)).mpr ⟨by decide, by decide⟩

/-- C9: whenever parsing the model's requirements response raises,
`generate_requirements` catches the error and returns exactly the
fallback structure `{"app_name": "MyApp", "features": ["task_management"]}`
instead of propagating it. -/
theorem generate_requirements_fallback (resp : String)
    (parse : String → Except String Requirements) (e : String)
    (hp : parse resp = Except.error e) :
    generate_requirements (Except.ok resp) parse = Except.ok fallbackRequirements ∧
    fallbackRequirements.app_name = some "MyApp" ∧
    fallbackRequirements.features = ["task_management"] := by
  refine ⟨?_, rfl, rfl⟩
  simp [generate_requirements, hp]

/-- C9 (witness): a response that is not JSON. -/
theorem generate_requirements_fallback_wit :
    generate_requirements (Except.ok "not json")
        (fun _ => Except.error "Expecting value") =
      Except.ok fallbackRequirements :=
  (generate_requirements_fallback "not json"
    (fun _ => Except.error "Expecting value") "Expecting value" rfl).1

/-- C10: after `gather_requirements` succeeds, the project name equals the
requirements' `app_name` when that key is present and `"NewApp"` when it
is absent, and every directory `create_project_structure` creates is the
project name followed by `/` and the artifact subdirectory. -/
theorem project_name_roots_artifacts (response : Except String String)
    (parse : String → Except String Requirements) (req : Requirements) (name : String)
    (hg : gather_requirements response parse = Except.ok (req, name)) :
    (∀ a, req.app_name = some a → name = a) ∧
    (req.app_name = none → name = "NewApp") ∧
    projectDirectories name =
      ["frontend", "backend", "ios", "tests", "docs", "configs"].map
        (fun sub => name ++ "/" ++ sub) := by
  have hname : name = req.app_name.getD "NewApp" := by
    unfold gather_requirements at hg
    cases hgen : generate_requirements response parse with
    | error e => rw [hgen] at hg; cases hg
    | ok r =>
      rw [hgen] at hg
      injection hg with hg
      rw [Prod.mk.injEq] at hg
      obtain ⟨rfl, h2⟩ := hg
      exact h2.symm
  refine ⟨?_, ?_, ?_⟩
  · intro a ha; rw [hname, ha]; rfl
  · intro ha; rw [hname, ha]; rfl
  · have h : ∀ s : String, name ++ ("/" ++ s) = name ++ "/" ++ s :=
      fun s => (String.append_assoc name "/" s).symm
    simp only [projectDirectories, List.map_cons, List.map_nil]
    rw [← h "frontend", ← h "backend", ← h "ios", ← h "tests", ← h "docs", ← h "configs"]
    rfl

/-- C10 (witness): a parse result without an `app_name` key yields the
project name `"NewApp"`, and the generated artifact directories are all
rooted there. -/
theorem project_name_roots_artifacts_wit :
    ("NewApp" : String) = "NewApp" ∧
    projectDirectories "NewApp" =
      ["frontend", "backend", "ios", "tests", "docs", "configs"].map
        (fun sub => "NewApp" ++ "/" ++ sub) :=
  ⟨(project_name_roots_artifacts (Except.ok "q") (fun _ => Except.ok ⟨none, []⟩)
      ⟨none, []⟩ "NewApp" (by decide)).2.1 rfl,
   (project_name_roots_artifacts (Except.ok "q") (fun _ => Except.ok ⟨none, []⟩)
      ⟨none, []⟩ "NewApp" (by decide)).2.2⟩

end AIServer
